import Mathlib

/-!
Shallow embedding of the freebox-watcher core: the HMAC request
authenticator (src/middleware/auth.ts) and the downtime supervisor
(services/downtimeMonitor.ts, services/downtime.ts, routes/heartbeat.ts).
Strings are Lean strings; JavaScript numbers that hold epoch times are
modelled as `Int`; external crypto primitives (node:crypto) are abstract
parameters bundled in `CryptoPrims`.
-/

/-- Whitespace recognised by JavaScript `String.prototype.trim` and the
regex class `\s` (space, tab, LF, VT, FF, CR, NBSP, BOM). -/
def jsWhitespace (c : Char) : Bool :=
  c.toNat = 32 || c.toNat = 9 || c.toNat = 10 || c.toNat = 11 ||
  c.toNat = 12 || c.toNat = 13 || c.toNat = 160 || c.toNat = 65279

/-- Line terminators, which the JavaScript regex `.` does not match. -/
def jsLineTerminator (c : Char) : Bool :=
  c.toNat = 10 || c.toNat = 13 || c.toNat = 8232 || c.toNat = 8233

/-- JavaScript `String.prototype.trim`. -/
def jsTrim (s : String) : String :=
  ⟨((s.data.dropWhile jsWhitespace).reverse.dropWhile jsWhitespace).reverse⟩

/-- JavaScript `String.prototype.toUpperCase` (character-wise). -/
def jsToUpperCase (s : String) : String :=
  ⟨s.data.map Char.toUpper⟩

/-- Tests whether `url` starts with `base`, as JS `String.prototype.startsWith`. -/
def strStartsWith (url base : String) : Bool :=
  List.isPrefixOf base.data url.data

/-- Drops the first `n` characters, as JS `String.prototype.substring(n)`. -/
def strDrop (s : String) (n : Nat) : String :=
  ⟨s.data.drop n⟩

/-- Numeric value of a run of decimal digits. -/
def digitsToNat (ds : List Char) : Nat :=
  ds.foldl (fun a c => a * 10 + (c.toNat - 48)) 0

/-- Leading run of decimal digits, `none` when there is none. -/
def leadingNat (cs : List Char) : Option Nat :=
  let ds := cs.takeWhile Char.isDigit
  if ds.isEmpty then none else some (digitsToNat ds)

/-- JavaScript `Number.parseInt(s, 10)`: skip leading whitespace, optional
sign, then the leading run of decimal digits; `none` models `NaN`. -/
def parseIntJS (s : String) : Option Int :=
  match s.data.dropWhile jsWhitespace with
  | '-' :: rest => (leadingNat rest).map (fun n => -(n : Int))
  | '+' :: rest => (leadingNat rest).map (fun n => (n : Int))
  | rest => (leadingNat rest).map (fun n => (n : Int))

/-- External crypto primitives from node:crypto, abstract here:
`bytes` is `Buffer.from` (UTF-8 bytes of a string), `hmacSha256 msg secret`
is the base64url HMAC-SHA256 signature, `sha256Base64url` the base64url
SHA-256 digest. -/
structure CryptoPrims where
  bytes : String → List Nat
  hmacSha256 : String → String → String
  sha256Base64url : String → String

/-- Constant MIN_API_SECRET_LENGTH from auth.ts. -/
def MIN_API_SECRET_LENGTH : Nat := 32

/-- Constant MAX_TIMESTAMP_AGE (seconds) from auth.ts. -/
def MAX_TIMESTAMP_AGE : Nat := 60

/-- Constant MAX_FUTURE_SKEW (seconds) from auth.ts. -/
def MAX_FUTURE_SKEW : Int := 10

/-- Embeds `computeHmac` from auth.ts. -/
def computeHmac (crypto : CryptoPrims) (message secret : String) : String :=
  crypto.hmacSha256 message secret

/-- Embeds Node's `crypto.timingSafeEqual` on two equal-length byte buffers:
a comparison that inspects every byte pair and never short-circuits. -/
def timingSafeEqual (a b : List Nat) : Bool :=
  (List.zip a b).foldl (fun acc p => acc && (p.1 == p.2)) true

/-- Embeds `validateSignature` from auth.ts: falsy-string early out,
then length check, then constant-time byte comparison. -/
def validateSignature (bytes : String → List Nat) (signature expectedSignature : String) : Bool :=
  if signature = "" || expectedSignature = "" then
    false
  else
    let signatureBuffer := bytes signature
    let expectedBuffer := bytes expectedSignature
    if signatureBuffer.length ≠ expectedBuffer.length then
      false
    else
      timingSafeEqual signatureBuffer expectedBuffer

/-- Instrumented mirror of `validateSignature` that counts how many byte
pairs are compared on each control path (0 on both early-out paths). -/
def validateSignatureComparisons (bytes : String → List Nat)
    (signature expectedSignature : String) : Nat :=
  if signature = "" || expectedSignature = "" then
    0
  else
    let signatureBuffer := bytes signature
    let expectedBuffer := bytes expectedSignature
    if signatureBuffer.length ≠ expectedBuffer.length then
      0
    else
      signatureBuffer.length

/-- Embeds `extractBearerToken` from auth.ts: the regex
`^Bearer\s+(.+)$` with the `i` flag, `undefined` on a falsy header. -/
def extractBearerToken (authHeader : String) : Option String :=
  if authHeader = "" then
    none
  else
    let cs := authHeader.data
    if (cs.take 6).map Char.toLower = "bearer".data then
      let rest := cs.drop 6
      let ws := rest.takeWhile jsWhitespace
      let tok := rest.dropWhile jsWhitespace
      if ws.length ≥ 1 && tok.length ≥ 1 && tok.all (fun c => !jsLineTerminator c) then
        some ⟨tok⟩
      else
        none
    else
      none

/-- Embeds `isValidTimestamp` from auth.ts. -/
def isValidTimestamp (now timestamp : Int) : Bool :=
  let age := (now - timestamp).natAbs
  decide (age ≤ MAX_TIMESTAMP_AGE) && decide (timestamp ≤ now + MAX_FUTURE_SKEW)

/-- Node header value: absent, a single string, or repeated (an array). -/
inductive HeaderValue where
  | missing : HeaderValue
  | single (s : String) : HeaderValue
  | multi (values : List String) : HeaderValue
deriving DecidableEq, Repr

/-- Embeds `normalizeHeader` from auth.ts: an array is accepted only when
it has exactly one element. -/
def normalizeHeader : HeaderValue → Option String
  | .missing => none
  | .single s => some s
  | .multi [v] => some v
  | .multi _ => none

/-- The request data the auth middleware reads. -/
structure AuthRequest where
  authorization : HeaderValue
  signatureTimestamp : HeaderValue
  signatureNonce : HeaderValue
  method : String
  url : String
  rawBody : Option String
deriving DecidableEq, Repr

/-- An HTTP error response as sent by `reply.code(status).send(...)`. -/
structure HttpResponse where
  status : Nat
  error : String
  message : String
deriving DecidableEq, Repr

/-- Observable outcome of the auth middleware: a rejection response, or
acceptance (calling `done()`). -/
inductive AuthOutcome where
  | reject (response : HttpResponse) : AuthOutcome
  | accept : AuthOutcome
deriving DecidableEq, Repr

/-- The uniform 401 rejection body used by every authentication failure. -/
def unauthorizedResponse : HttpResponse :=
  ⟨401, "Unauthorized", "Authentication failed"⟩

/-- The 500 response for a missing API secret. -/
def secretMissingResponse : HttpResponse :=
  ⟨500, "Internal Server Error", "API secret not configured"⟩

/-- The 500 response for an API secret shorter than 32 characters. -/
def secretTooShortResponse : HttpResponse :=
  ⟨500, "Internal Server Error", "API secret must be at least 32 characters"⟩

/-- The canonical path: the request url with the known API base path
stripped when present, defaulting to "/" when the remainder is empty. -/
def canonicalPathOf (basePath url : String) : String :=
  let pathWithoutBase := if strStartsWith url basePath then strDrop url basePath.data.length else url
  if pathWithoutBase = "" then "/" else pathWithoutBase

/-- Embeds `buildCanonicalMessage` from auth.ts. -/
def buildCanonicalMessage (sha256Base64url : String → String)
    (method path timestamp nonce body : String) : String :=
  let bodyHash := sha256Base64url body
  "method=" ++ jsToUpperCase method ++ ";path=" ++ path ++ ";ts=" ++ timestamp ++
    ";nonce=" ++ nonce ++ ";body_sha256=" ++ bodyHash

/-- Embeds `authMiddleware` from auth.ts as a pure function of the
request, the trimmed `API_SECRET` environment value, the current time in
unix seconds, and the mounted base path (`API_PREFIX`). -/
def authMiddleware (crypto : CryptoPrims) (basePath : String)
    (apiSecretEnv : Option String) (now : Int) (req : AuthRequest) : AuthOutcome :=
  match apiSecretEnv.map jsTrim with
  | none => .reject secretMissingResponse
  | some apiSecret =>
    if apiSecret.length = 0 then .reject secretMissingResponse
    else if apiSecret.length < MIN_API_SECRET_LENGTH then .reject secretTooShortResponse
    else
      match normalizeHeader req.authorization,
            normalizeHeader req.signatureTimestamp,
            normalizeHeader req.signatureNonce with
      | some authHeader, some timestampHeader, some nonceHeader =>
        (match extractBearerToken authHeader with
         | none => .reject unauthorizedResponse
         | some signature =>
           if signature = "" || timestampHeader = "" || nonceHeader = "" then
             .reject unauthorizedResponse
           else
             match parseIntJS timestampHeader with
             | none => .reject unauthorizedResponse
             | some timestamp =>
               if !isValidTimestamp now timestamp then .reject unauthorizedResponse
               else if (jsTrim nonceHeader).length = 0 then .reject unauthorizedResponse
               else
                 let bodyString := req.rawBody.getD ""
                 let canonicalPath := canonicalPathOf basePath req.url
                 let canonicalMessage := buildCanonicalMessage crypto.sha256Base64url
                   req.method canonicalPath timestampHeader nonceHeader bodyString
                 let expectedSignature := computeHmac crypto canonicalMessage apiSecret
                 if validateSignature crypto.bytes signature expectedSignature then
                   .accept
                 else
                   .reject unauthorizedResponse)
      | _, _, _ => .reject unauthorizedResponse

/-- Concrete crypto instantiation used to evaluate the model on closed
inputs: byte view is the character codes, and the two digests are fixed
test stubs (the theorems quantify over arbitrary primitives). -/
def testCrypto : CryptoPrims where
  bytes s := s.data.map Char.toNat
  hmacSha256 _ _ := "testsig"
  sha256Base64url _ := "bodyhash"

/-- A persisted heartbeat row (services/heartbeat.ts); `timestamp` is epoch
milliseconds, `connection_state` the reported status string. -/
structure HeartbeatRec where
  id : Nat
  timestamp : Int
  connection_state : String
deriving DecidableEq, Repr

/-- A persisted downtime event row (services/downtime.ts); times are epoch
milliseconds, `duration` whole seconds. -/
structure DowntimeEventRec where
  id : Nat
  started_at : Int
  ended_at : Option Int
  duration : Option Int
  is_active : Bool
  notes : Option String
deriving DecidableEq, Repr

/-- The persistent store the services read and write. -/
structure Store where
  heartbeats : List HeartbeatRec
  downtime_events : List DowntimeEventRec
  nextHeartbeatId : Nat
  nextDowntimeId : Nat
deriving DecidableEq, Repr

/-- Of two heartbeats, the one a descending-timestamp order lists first. -/
def laterHeartbeat (a b : HeartbeatRec) : HeartbeatRec :=
  if b.timestamp > a.timestamp then b else a

/-- Embeds `heartbeatService.getLastHeartbeat`: the heartbeat row first in
descending `timestamp` order, `null` when the table is empty. -/
def getLastHeartbeat (store : Store) : Option HeartbeatRec :=
  match store.heartbeats with
  | [] => none
  | h :: t => some (t.foldl laterHeartbeat h)

/-- Of two downtime events, the one a descending-started_at order lists first. -/
def laterEvent (a b : DowntimeEventRec) : DowntimeEventRec :=
  if b.started_at > a.started_at then b else a

/-- Embeds `downtimeService.getActiveDowntimeEvent`: the `is_active` row
first in descending `started_at` order, `null` when none is active. -/
def getActiveDowntimeEvent (store : Store) : Option DowntimeEventRec :=
  match store.downtime_events.filter (fun e => e.is_active) with
  | [] => none
  | e :: t => some (t.foldl laterEvent e)

/-- Embeds `downtimeService.createDowntimeEvent`: inserts a new row with
`is_active = true` and returns its id. -/
def createDowntimeEvent (store : Store) (startedAt : Int) (notes : Option String) :
    Nat × Store :=
  let id := store.nextDowntimeId
  (id,
   { store with
       downtime_events := store.downtime_events ++ [⟨id, startedAt, none, none, true, notes⟩],
       nextDowntimeId := id + 1 })

/-- The row update applied by `endDowntimeEvent` to the row with the given
id (all other rows are unchanged). -/
def closeEventRow (id : Nat) (endedAt duration : Int) (e : DowntimeEventRec) :
    DowntimeEventRec :=
  if e.id == id then
    { e with ended_at := some endedAt, duration := some duration, is_active := false }
  else
    e

/-- Embeds `downtimeService.endDowntimeEvent`: looks the row up (throwing,
modelled as `none`, when it does not exist), computes
`duration = Math.floor((endedAt - startedAt) / 1000)`, and updates the row. -/
def endDowntimeEvent (store : Store) (id : Nat) (endedAt : Int) : Option Store :=
  match store.downtime_events.find? (fun e => e.id == id) with
  | none => none
  | some downtimeEvent =>
    let duration := Int.fdiv (endedAt - downtimeEvent.started_at) 1000
    some { store with
             downtime_events :=
               store.downtime_events.map (closeEventRow id endedAt duration) }

/-- Embeds `heartbeatService.recordHeartbeat`: inserts a heartbeat row and
returns its id. -/
def recordHeartbeat (store : Store) (timestamp : Int) (connection_state : String) :
    Nat × Store :=
  let id := store.nextHeartbeatId
  (id,
   { store with
       heartbeats := store.heartbeats ++ [⟨id, timestamp, connection_state⟩],
       nextHeartbeatId := id + 1 })

/-- DowntimeMonitor configuration (constructor of downtimeMonitor.ts) plus
whether the notification sink is enabled (`notificationService.isEnabled`). -/
structure MonitorConfig where
  heartbeatTimeoutMs : Int
  confirmationDelayMs : Int
  notificationsEnabled : Bool
deriving DecidableEq, Repr

/-- Process state shared by the monitor and the heartbeat route: the store
plus the in-memory `confirmedDowntimeIds` set. -/
structure SysState where
  store : Store
  confirmedDowntimeIds : List Nat
deriving DecidableEq, Repr

/-- One outbound notification (notification.ts sink operations). -/
inductive Notification where
  | detected (downtimeId : Nat) (startedAt : Int) (timeoutMs : Int) : Notification
  | confirmed (downtimeId : Nat) (startedAt : Int) (confirmationDelayMs : Int) : Notification
  | recovered (downtimeId : Nat) (startedAt : Int) (endedAt : Int) : Notification
deriving DecidableEq, Repr

/-- Embeds `DowntimeMonitor.checkConfirmationNotification`: past the
confirmation delay, the id is added to the confirmed set and, when the
sink is enabled, one confirmed notification is emitted. -/
def checkConfirmationNotification (cfg : MonitorConfig) (st : SysState) (now : Int)
    (downtime : DowntimeEventRec) : SysState × List Notification :=
  let timeSinceStart := now - downtime.started_at
  if timeSinceStart ≥ cfg.confirmationDelayMs then
    let st' := { st with confirmedDowntimeIds := st.confirmedDowntimeIds.insert downtime.id }
    (st',
     if cfg.notificationsEnabled then
       [.confirmed downtime.id downtime.started_at cfg.confirmationDelayMs]
     else [])
  else
    (st, [])

/-- Embeds `DowntimeMonitor.createNewDowntime`: creates the event starting
at `lastHeartbeat.timestamp + heartbeatTimeoutMs` and, when the sink is
enabled, emits one detected notification carrying the timeout. -/
def createNewDowntime (cfg : MonitorConfig) (st : SysState)
    (lastHeartbeat : HeartbeatRec) : SysState × List Notification :=
  let downtimeStartedAt := lastHeartbeat.timestamp + cfg.heartbeatTimeoutMs
  let created := createDowntimeEvent st.store downtimeStartedAt
    (some "Automatically detected downtime")
  ({ st with store := created.2 },
   if cfg.notificationsEnabled then
     [.detected created.1 downtimeStartedAt cfg.heartbeatTimeoutMs]
   else [])

/-- Embeds `DowntimeMonitor.checkDowntime` (one supervisor tick): with an
active event, only the confirmation transition is checked; otherwise a
stale last heartbeat triggers event creation. -/
def checkDowntime (cfg : MonitorConfig) (st : SysState) (now : Int) :
    SysState × List Notification :=
  match getActiveDowntimeEvent st.store with
  | some activeDowntime =>
    if st.confirmedDowntimeIds.contains activeDowntime.id then
      (st, [])
    else
      checkConfirmationNotification cfg st now activeDowntime
  | none =>
    match getLastHeartbeat st.store with
    | some lastHeartbeat =>
      if now - lastHeartbeat.timestamp > cfg.heartbeatTimeoutMs then
        createNewDowntime cfg st lastHeartbeat
      else
        (st, [])
    | none => (st, [])

/-- Embeds the accepted-heartbeat path of `POST /heartbeat`
(routes/heartbeat.ts): record the heartbeat, then, when an active event
exists and the reported state is "up", close it, remove its id from the
confirmed set (`markDowntimeEnded`), and emit one recovery notification.
A storage error while closing (the `catch` branch) leaves the event open. -/
def heartbeatWrite (cfg : MonitorConfig) (st : SysState) (now : Int)
    (timestamp : Int) (connection_state : String) : SysState × List Notification :=
  let recorded := recordHeartbeat st.store timestamp connection_state
  let store' := recorded.2
  match getActiveDowntimeEvent store' with
  | some activeDowntime =>
    if connection_state = "up" then
      let endedAt := now
      match endDowntimeEvent store' activeDowntime.id endedAt with
      | some store'' =>
        ({ store := store'',
           confirmedDowntimeIds := st.confirmedDowntimeIds.erase activeDowntime.id },
         if cfg.notificationsEnabled then
           [.recovered activeDowntime.id activeDowntime.started_at endedAt]
         else [])
      | none => ({ st with store := store' }, [])
    else
      ({ st with store := store' }, [])
  | none => ({ st with store := store' }, [])

/-- An interleaving step: a supervisor tick, or an accepted heartbeat write. -/
inductive SystemOp where
  | tick (now : Int) : SystemOp
  | heartbeat (now : Int) (timestamp : Int) (connection_state : String) : SystemOp
deriving DecidableEq, Repr

/-- One system step. -/
def stepSystem (cfg : MonitorConfig) (st : SysState) : SystemOp → SysState × List Notification
  | .tick now => checkDowntime cfg st now
  | .heartbeat now timestamp connection_state =>
    heartbeatWrite cfg st now timestamp connection_state

/-- Runs a sequence of interleaved system steps, collecting notifications. -/
def runSystem (cfg : MonitorConfig) (st : SysState) : List SystemOp → SysState × List Notification
  | [] => (st, [])
  | op :: ops =>
    let r := stepSystem cfg st op
    let r' := runSystem cfg r.1 ops
    (r'.1, r.2 ++ r'.2)

/-- Runs a sequence of supervisor ticks at the given instants. -/
def runTicks (cfg : MonitorConfig) (st : SysState) : List Int → SysState × List Notification
  | [] => (st, [])
  | now :: rest =>
    let r := checkDowntime cfg st now
    let r' := runTicks cfg r.1 rest
    (r'.1, r.2 ++ r'.2)

/-- Number of active downtime events in the store. -/
def activeEventCount (store : Store) : Nat :=
  (store.downtime_events.filter (fun e => e.is_active)).length

/-- Recognises a confirmed notification for the given event id. -/
def isConfirmedNotificationFor (id : Nat) : Notification → Bool
  | .confirmed i _ _ => i == id
  | _ => false

/-- Number of confirmed notifications for the given event id in a batch. -/
def confirmedCount (id : Nat) (ns : List Notification) : Nat :=
  (ns.filter (isConfirmedNotificationFor id)).length

/-- Observable scheduling state of `DowntimeMonitor.start`/`stop`:
`intervalIdSet` is `this.intervalId !== null`, `pendingTimers` counts
scheduled-but-unfired `runCheck` timers, `ticksInFlight` counts awaited
`checkDowntime` calls. -/
structure MonitorLoopState where
  intervalIdSet : Bool
  pendingTimers : Nat
  ticksInFlight : Nat
deriving DecidableEq, Repr

/-- Atomic scheduling events of the monitor loop. `tickFinish` carries
whether the tick's storage or notification work raised (the exception is
caught inside `checkDowntime`, so completion looks the same either way). -/
inductive LoopEvent where
  | timerFire : LoopEvent
  | tickFinish (tickThrew : Bool) : LoopEvent
  | stopCall : LoopEvent
  | startCall : LoopEvent
deriving DecidableEq, Repr

/-- Embeds the scheduling behaviour of downtimeMonitor.ts: a timer fire
consumes a pending timer and begins a tick; a completed tick re-arms one
timer only when `this.intervalId` is still set; `stop` clears the timer
and nulls `intervalId`; `start` is a no-op when already running. `none`
marks an event that cannot occur in that state. -/
def loopStep (s : MonitorLoopState) : LoopEvent → Option MonitorLoopState
  | .timerFire =>
    if s.pendingTimers ≥ 1 then
      some { s with pendingTimers := s.pendingTimers - 1, ticksInFlight := s.ticksInFlight + 1 }
    else none
  | .tickFinish _ =>
    if s.ticksInFlight ≥ 1 then
      some { s with
               ticksInFlight := s.ticksInFlight - 1,
               pendingTimers :=
                 if s.intervalIdSet then s.pendingTimers + 1 else s.pendingTimers }
    else none
  | .stopCall =>
    some (if s.intervalIdSet then { s with intervalIdSet := false, pendingTimers := 0 } else s)
  | .startCall =>
    some (if s.intervalIdSet then s
          else { s with intervalIdSet := true, pendingTimers := s.pendingTimers + 1 })

/-- Runs a sequence of loop events, `none` when one of them cannot occur. -/
def runLoop : MonitorLoopState → List LoopEvent → Option MonitorLoopState
  | s, [] => some s
  | s, e :: es =>
    match loopStep s e with
    | none => none
    | some s' => runLoop s' es

/-- A 32-character secret used for concrete evaluations. -/
def testSecret : String := "0123456789abcdef0123456789abcdef"

/-- A request that `authMiddleware` accepts under `testCrypto` at `now = 100`. -/
def testRequest : AuthRequest where
  authorization := .single "Bearer testsig"
  signatureTimestamp := .single "100"
  signatureNonce := .single "n1"
  method := "post"
  url := "/api/v1/heartbeat"
  rawBody := some "body"

/-- A request whose timestamp header is far older than `now = 100`. -/
def staleRequest : AuthRequest where
  authorization := .single "Bearer testsig"
  signatureTimestamp := .single "0"
  signatureNonce := .single "n1"
  method := "post"
  url := "/api/v1/heartbeat"
  rawBody := some "body"

/-- A request whose Authorization header arrives twice. -/
def multiHeaderRequest : AuthRequest where
  authorization := .multi ["Bearer testsig", "Bearer other"]
  signatureTimestamp := .single "100"
  signatureNonce := .single "n1"
  method := "post"
  url := "/api/v1/heartbeat"
  rawBody := some "body"

/-- Default monitor configuration (300 s timeout, 1800 s confirmation
delay) with the notification sink enabled. -/
def testConfig : MonitorConfig where
  heartbeatTimeoutMs := 300000
  confirmationDelayMs := 1800000
  notificationsEnabled := true

/-- A state with one heartbeat at epoch 0 and no downtime events. -/
def healthyState : SysState where
  store := { heartbeats := [⟨1, 0, "up"⟩], downtime_events := [],
             nextHeartbeatId := 2, nextDowntimeId := 1 }
  confirmedDowntimeIds := []

/-- A state with one active downtime event whose id is confirmed. -/
def downState : SysState where
  store := { heartbeats := [⟨1, 0, "up"⟩],
             downtime_events := [⟨1, 300000, none, none, true, none⟩],
             nextHeartbeatId := 2, nextDowntimeId := 2 }
  confirmedDowntimeIds := [1]

/-- A state with one active downtime event not yet confirmed. -/
def downUnconfirmedState : SysState where
  store := { heartbeats := [⟨1, 0, "up"⟩],
             downtime_events := [⟨1, 300000, none, none, true, none⟩],
             nextHeartbeatId := 2, nextDowntimeId := 2 }
  confirmedDowntimeIds := []

/-- Folding the byte comparison from a false accumulator stays false. -/
lemma foldl_band_false (l : List (Nat × Nat)) :
    l.foldl (fun acc p => acc && (p.1 == p.2)) false = false := by
  induction l with
  | nil => rfl
  | cons x xs ih => simpa using ih

/-- On equal-length buffers, the constant-time comparison decides equality. -/
lemma timingSafeEqual_eq_true_iff :
    ∀ (a b : List Nat), a.length = b.length → (timingSafeEqual a b = true ↔ a = b) := by
  intro a
  induction a with
  | nil =>
    intro b h
    cases b with
    | nil => simp [timingSafeEqual]
    | cons y ys => simp at h
  | cons x xs ih =>
    intro b h
    cases b with
    | nil => simp at h
    | cons y ys =>
      simp only [List.length_cons, Nat.succ.injEq] at h
      by_cases hxy : x = y
      · subst hxy
        have : timingSafeEqual (x :: xs) (x :: ys) = timingSafeEqual xs ys := by
          simp [timingSafeEqual]
        rw [this, ih ys h]
        simp
      · have hb : (x == y) = false := by simp [hxy]
        have : timingSafeEqual (x :: xs) (y :: ys) = false := by
          simp only [timingSafeEqual, List.zip_cons_cons, List.foldl_cons, Bool.true_and, hb]
          exact foldl_band_false _
        rw [this]
        simp [hxy]

/-- A signature validated successfully is byte-equal to the expected one. -/
lemma validateSignature_bytes_eq (bytes : String → List Nat) (s e : String)
    (h : validateSignature bytes s e = true) : bytes s = bytes e := by
  unfold validateSignature at h
  split at h
  · exact absurd h (by simp)
  · dsimp only at h
    split at h
    · exact absurd h (by simp)
    · next hlen =>
      have hl : (bytes s).length = (bytes e).length := by
        by_contra hc
        exact hlen hc
      exact (timingSafeEqual_eq_true_iff _ _ hl).mp h

/-- The descending-order fold returns one of the candidate events. -/
lemma foldl_laterEvent_mem :
    ∀ (t : List DowntimeEventRec) (e : DowntimeEventRec), t.foldl laterEvent e ∈ e :: t := by
  intro t
  induction t with
  | nil => intro e; simp
  | cons x xs ih =>
    intro e
    have h := ih (laterEvent e x)
    rw [List.mem_cons] at h
    have hx : laterEvent e x = x ∨ laterEvent e x = e := by
      unfold laterEvent
      split
      · exact Or.inl rfl
      · exact Or.inr rfl
    simp only [List.foldl_cons, List.mem_cons]
    rcases h with h | h
    · rw [h]
      rcases hx with hx | hx
      · rw [hx]; tauto
      · rw [hx]; tauto
    · tauto

/-- An active event returned by the query is an active row of the table. -/
lemma getActiveDowntimeEvent_mem {store : Store} {a : DowntimeEventRec}
    (h : getActiveDowntimeEvent store = some a) :
    a ∈ store.downtime_events ∧ a.is_active = true := by
  unfold getActiveDowntimeEvent at h
  split at h
  · exact absurd h (by simp)
  · next e t heq =>
    have ha : List.foldl laterEvent e t = a := Option.some.inj h
    have hmem : a ∈ e :: t := ha ▸ foldl_laterEvent_mem t e
    have hsub : a ∈ store.downtime_events.filter (fun e => e.is_active) := by
      rw [heq]; exact hmem
    exact ⟨List.mem_of_mem_filter hsub, by simpa using List.of_mem_filter hsub⟩

/-- The query returns `null` exactly when no row is active. -/
lemma getActiveDowntimeEvent_eq_none {store : Store} :
    getActiveDowntimeEvent store = none ↔
      store.downtime_events.filter (fun e => e.is_active) = [] := by
  unfold getActiveDowntimeEvent
  split
  · next heq => simp [heq]
  · next e t heq => simp [heq]

/-- No active event means the active count is zero. -/
lemma activeEventCount_eq_zero {store : Store}
    (h : getActiveDowntimeEvent store = none) : activeEventCount store = 0 := by
  unfold activeEventCount
  rw [getActiveDowntimeEvent_eq_none.mp h]
  rfl

/-- Filtering a mapped list is no longer than filtering the original when
the map can only turn the predicate off. -/
lemma length_filter_map_le {α : Type} (f : α → α) (p : α → Bool)
    (hf : ∀ x, p (f x) = true → p x = true) :
    ∀ l : List α, ((l.map f).filter p).length ≤ (l.filter p).length := by
  intro l
  induction l with
  | nil => simp
  | cons x xs ih =>
    simp only [List.map_cons, List.filter_cons]
    by_cases hfx : p (f x) = true
    · have hx : p x = true := hf x hfx
      simp [hfx, hx, Nat.succ_le_succ ih]
    · have hfx' : p (f x) = false := by simpa using hfx
      by_cases hx : p x = true
      · simp [hfx', hx]
        exact Nat.le_succ_of_le ih
      · have hx' : p x = false := by simpa using hx
        simp [hfx', hx', ih]

/-- Closing a row never turns an inactive row active. -/
lemma closeEventRow_active {id : Nat} {endedAt duration : Int} {e : DowntimeEventRec}
    (h : (closeEventRow id endedAt duration e).is_active = true) : e.is_active = true := by
  unfold closeEventRow at h
  split at h
  · simp at h
  · exact h

/-- The confirmation check never touches the store. -/
lemma checkConfirmationNotification_store (cfg : MonitorConfig) (st : SysState) (now : Int)
    (d : DowntimeEventRec) :
    (checkConfirmationNotification cfg st now d).1.store = st.store := by
  unfold checkConfirmationNotification
  dsimp only
  split <;> rfl

/-- The heartbeat insert leaves the downtime table unchanged. -/
lemma recordHeartbeat_events (store : Store) (timestamp : Int) (connection_state : String) :
    (recordHeartbeat store timestamp connection_state).2.downtime_events =
      store.downtime_events := rfl

/-- A supervisor tick leaves the active count at most one. -/
lemma activeEventCount_checkDowntime_le (cfg : MonitorConfig) (st : SysState) (now : Int)
    (h : activeEventCount st.store ≤ 1) :
    activeEventCount (checkDowntime cfg st now).1.store ≤ 1 := by
  unfold checkDowntime
  cases hact : getActiveDowntimeEvent st.store with
  | some a =>
    simp only [hact]
    cases hc : st.confirmedDowntimeIds.contains a.id with
    | true => simpa [hc] using h
    | false =>
      simp only [hc, Bool.false_eq_true, if_false]
      rw [activeEventCount, checkConfirmationNotification_store]
      exact h
  | none =>
    simp only [hact]
    have hzero := activeEventCount_eq_zero hact
    cases hlast : getLastHeartbeat st.store with
    | none => simpa using h
    | some hb =>
      simp only [hlast]
      by_cases hgap : now - hb.timestamp > cfg.heartbeatTimeoutMs
      · rw [if_pos hgap]
        unfold createNewDowntime createDowntimeEvent
        dsimp only
        unfold activeEventCount at hzero ⊢
        dsimp only
        rw [List.filter_append, List.length_eq_zero.mp hzero]
        simp
      · rw [if_neg hgap]
        exact h

/-- An accepted heartbeat write never increases the active count, and
never adds or removes downtime rows. -/
lemma heartbeatWrite_events (cfg : MonitorConfig) (st : SysState) (now timestamp : Int)
    (connection_state : String) :
    activeEventCount (heartbeatWrite cfg st now timestamp connection_state).1.store ≤
        activeEventCount st.store ∧
      (heartbeatWrite cfg st now timestamp connection_state).1.store.downtime_events.length =
        st.store.downtime_events.length := by
  unfold heartbeatWrite
  dsimp only
  cases hact : getActiveDowntimeEvent (recordHeartbeat st.store timestamp connection_state).2 with
  | none =>
    simp only [hact]
    exact ⟨Nat.le_refl _, rfl⟩
  | some a =>
    simp only [hact]
    by_cases hup : connection_state = "up"
    · rw [if_pos hup]
      cases hend : endDowntimeEvent (recordHeartbeat st.store timestamp connection_state).2 a.id now with
      | none =>
        simp only [hend]
        exact ⟨Nat.le_refl _, rfl⟩
      | some s2 =>
        simp only [hend]
        unfold endDowntimeEvent at hend
        split at hend
        · exact absurd hend (by simp)
        · next ev hfind =>
          dsimp only at hend
          have hs2 := Option.some.inj hend
          constructor
          · rw [← hs2]
            unfold activeEventCount
            dsimp only
            rw [recordHeartbeat_events]
            exact length_filter_map_le (closeEventRow a.id now ((now - ev.started_at).fdiv 1000))
              (fun e => e.is_active) (fun x hx => closeEventRow_active hx)
              st.store.downtime_events
          · rw [← hs2]
            dsimp only
            rw [recordHeartbeat_events, List.length_map]
    · rw [if_neg hup]
      exact ⟨Nat.le_refl _, rfl⟩

/-- One system step keeps the active count at most one. -/
lemma activeEventCount_step_le (cfg : MonitorConfig) (st : SysState) (op : SystemOp)
    (h : activeEventCount st.store ≤ 1) :
    activeEventCount (stepSystem cfg st op).1.store ≤ 1 := by
  cases op with
  | tick now => exact activeEventCount_checkDowntime_le cfg st now h
  | heartbeat now timestamp connection_state =>
    exact Nat.le_trans (heartbeatWrite_events cfg st now timestamp connection_state).1 h

/-- Any run of interleaved steps keeps the active count at most one. -/
lemma activeEventCount_run_le (cfg : MonitorConfig) :
    ∀ (ops : List SystemOp) (st : SysState), activeEventCount st.store ≤ 1 →
      activeEventCount (runSystem cfg st ops).1.store ≤ 1 := by
  intro ops
  induction ops with
  | nil => intro st h; exact h
  | cons op rest ih =>
    intro st h
    unfold runSystem
    dsimp only
    exact ih _ (activeEventCount_step_le cfg st op h)

/-- Boolean `contains` on the confirmed-id set agrees with membership. -/
lemma contains_iff_mem (l : List Nat) (x : Nat) : l.contains x = true ↔ x ∈ l := by
  simp [List.contains, List.elem_iff]

/-- Confirmed-notification counts add over batch concatenation. -/
lemma confirmedCount_append (id : Nat) (a b : List Notification) :
    confirmedCount id (a ++ b) = confirmedCount id a + confirmedCount id b := by
  unfold confirmedCount
  rw [List.filter_append, List.length_append]

/-- One tick sends at most one confirmed notification for an id, sends none
for an id already in the confirmed set, never removes an id from the set,
and records the id in the set whenever it sends one. -/
lemma checkDowntime_confirmed (cfg : MonitorConfig) (st : SysState) (now : Int) (id : Nat) :
    (id ∈ st.confirmedDowntimeIds →
      id ∈ (checkDowntime cfg st now).1.confirmedDowntimeIds ∧
        confirmedCount id (checkDowntime cfg st now).2 = 0) ∧
      confirmedCount id (checkDowntime cfg st now).2 ≤ 1 ∧
      (confirmedCount id (checkDowntime cfg st now).2 = 1 →
        id ∈ (checkDowntime cfg st now).1.confirmedDowntimeIds ∧
          id ∉ st.confirmedDowntimeIds) := by
  unfold checkDowntime
  cases hact : getActiveDowntimeEvent st.store with
  | some a =>
    simp only [hact]
    cases hc : st.confirmedDowntimeIds.contains a.id with
    | true => simp [confirmedCount]
    | false =>
      have hna : a.id ∉ st.confirmedDowntimeIds := by
        intro hmem
        rw [← contains_iff_mem] at hmem
        rw [hc] at hmem
        exact absurd hmem (by simp)
      simp only [hc, Bool.false_eq_true, if_false]
      unfold checkConfirmationNotification
      dsimp only
      by_cases hd : now - a.started_at ≥ cfg.confirmationDelayMs
      · rw [if_pos hd]
        cases henb : cfg.notificationsEnabled with
        | false =>
          simp only [Bool.false_eq_true, if_false]
          refine ⟨fun hmem => ⟨?_, rfl⟩, by simp [confirmedCount], by simp [confirmedCount]⟩
          simp [List.mem_insert_iff, hmem]
        | true =>
          simp only [if_true]
          by_cases hid : a.id = id
          · subst hid
            refine ⟨fun hmem => absurd hmem hna, ?_, ?_⟩
            · simp [confirmedCount, isConfirmedNotificationFor]
            · intro _
              exact ⟨List.mem_insert_self _ _, hna⟩
          · have hcnt : confirmedCount id [Notification.confirmed a.id a.started_at
                cfg.confirmationDelayMs] = 0 := by
              simp [confirmedCount, isConfirmedNotificationFor, hid]
            refine ⟨fun hmem => ⟨?_, hcnt⟩, by rw [hcnt]; omega, fun h1 => ?_⟩
            · simp [List.mem_insert_iff, hmem]
            · rw [hcnt] at h1
              exact absurd h1 (by simp)
      · rw [if_neg hd]
        simp [confirmedCount]
  | none =>
    simp only [hact]
    cases hlast : getLastHeartbeat st.store with
    | none => simp [confirmedCount]
    | some hb =>
      simp only [hlast]
      by_cases hgap : now - hb.timestamp > cfg.heartbeatTimeoutMs
      · rw [if_pos hgap]
        unfold createNewDowntime
        dsimp only
        cases henb : cfg.notificationsEnabled with
        | false => simp [confirmedCount]
        | true => simp [confirmedCount, isConfirmedNotificationFor]
      · rw [if_neg hgap]
        simp [confirmedCount]

/-- Over any tick sequence, at most one confirmed notification per id, and
none at all once the id is in the confirmed set. -/
lemma runTicks_confirmed (cfg : MonitorConfig) (id : Nat) :
    ∀ (nows : List Int) (st : SysState),
      (id ∈ st.confirmedDowntimeIds → confirmedCount id (runTicks cfg st nows).2 = 0) ∧
        confirmedCount id (runTicks cfg st nows).2 ≤ 1 := by
  intro nows
  induction nows with
  | nil => intro st; simp [runTicks, confirmedCount]
  | cons now rest ih =>
    intro st
    unfold runTicks
    dsimp only
    rw [confirmedCount_append]
    obtain ⟨hmono, hle, hone⟩ := checkDowntime_confirmed cfg st now id
    obtain ⟨ihmem, ihle⟩ := ih (checkDowntime cfg st now).1
    constructor
    · intro hmem
      obtain ⟨hmem', hzero⟩ := hmono hmem
      rw [hzero, ihmem hmem']
    · rcases Nat.lt_or_ge (confirmedCount id (checkDowntime cfg st now).2) 1 with hlt | hge
      · have hz : confirmedCount id (checkDowntime cfg st now).2 = 0 := by omega
        rw [hz]
        omega
      · have h1 : confirmedCount id (checkDowntime cfg st now).2 = 1 := by omega
        obtain ⟨hmem', _⟩ := hone h1
        rw [h1, ihmem hmem']

/-- With unique ids, the lookup by id of a row of the table finds that row. -/
lemma find_id_of_nodup {l : List DowntimeEventRec} {a : DowntimeEventRec}
    (hmem : a ∈ l) (hnd : (l.map (fun e => e.id)).Nodup) :
    l.find? (fun e => e.id == a.id) = some a := by
  induction l with
  | nil => simp at hmem
  | cons x xs ih =>
    rw [List.map_cons, List.nodup_cons] at hnd
    obtain ⟨hx, hnd'⟩ := hnd
    rw [List.mem_cons] at hmem
    rcases hmem with h | h
    · subst h
      simp [List.find?]
    · have hne : (x.id == a.id) = false := by
        simp only [beq_eq_false_iff_ne, ne_eq]
        intro he
        exact hx (he ▸ List.mem_map_of_mem (fun e => e.id) h)
      simp only [List.find?]
      rw [hne]
      exact ih h hnd'

/-- A repeated header (two or more values) normalises to `undefined`. -/
lemma normalizeHeader_multi {vs : List String} (h : 2 ≤ vs.length) :
    normalizeHeader (.multi vs) = none := by
  match vs, h with
  | v₁ :: v₂ :: rest, _ => rfl

/-- After a stop, runs without a start keep the loop disarmed with no
pending timer, and can contain no timer fire. -/
lemma runLoop_stopped :
    ∀ (evs : List LoopEvent) (s s' : MonitorLoopState),
      s.intervalIdSet = false → s.pendingTimers = 0 →
      LoopEvent.startCall ∉ evs → runLoop s evs = some s' →
      s'.intervalIdSet = false ∧ s'.pendingTimers = 0 ∧ LoopEvent.timerFire ∉ evs := by
  intro evs
  induction evs with
  | nil =>
    intro s s' h1 h2 _ hrun
    unfold runLoop at hrun
    cases hrun
    exact ⟨h1, h2, by simp⟩
  | cons e rest ih =>
    intro s s' h1 h2 hns hrun
    have hns' : LoopEvent.startCall ∉ rest := fun hm => hns (List.mem_cons_of_mem _ hm)
    have hne : e ≠ LoopEvent.startCall := fun he => hns (he ▸ List.mem_cons_self _ _)
    unfold runLoop at hrun
    cases e with
    | timerFire =>
      simp [loopStep, h2] at hrun
    | tickFinish b =>
      by_cases hf : 1 ≤ s.ticksInFlight
      · simp only [loopStep, if_pos hf, ge_iff_le] at hrun
        obtain ⟨ha, hb, hc⟩ := ih _ s' (by simpa using h1) (by simp [h1, h2]) hns' hrun
        exact ⟨ha, hb, by simp [hc]⟩
      · simp [loopStep, hf] at hrun
    | stopCall =>
      simp only [loopStep, h1, Bool.false_eq_true, if_false] at hrun
      obtain ⟨ha, hb, hc⟩ := ih s s' h1 h2 hns' hrun
      exact ⟨ha, hb, by simp [hc]⟩
    | startCall => exact absurd rfl hne

/-- Anatomy of an accepted request: acceptance forces every check on the
way — configured secret, single string headers, Bearer token, parseable
fresh timestamp, non-blank nonce — and a validated signature over the
canonical message. -/
lemma authMiddleware_accept_anatomy (crypto : CryptoPrims) (basePath : String)
    (secretEnv : Option String) (now : Int) (req : AuthRequest)
    (hacc : authMiddleware crypto basePath secretEnv now req = .accept) :
    ∃ secretRaw ah tsH nH sig ts,
      secretEnv = some secretRaw ∧
      (jsTrim secretRaw).length ≠ 0 ∧
      ¬(jsTrim secretRaw).length < MIN_API_SECRET_LENGTH ∧
      normalizeHeader req.authorization = some ah ∧
      normalizeHeader req.signatureTimestamp = some tsH ∧
      normalizeHeader req.signatureNonce = some nH ∧
      extractBearerToken ah = some sig ∧
      sig ≠ "" ∧ tsH ≠ "" ∧ nH ≠ "" ∧
      parseIntJS tsH = some ts ∧
      isValidTimestamp now ts = true ∧
      (jsTrim nH).length ≠ 0 ∧
      validateSignature crypto.bytes sig
        (computeHmac crypto
          (buildCanonicalMessage crypto.sha256Base64url req.method
            (canonicalPathOf basePath req.url) tsH nH (req.rawBody.getD ""))
          (jsTrim secretRaw)) = true := by
  unfold authMiddleware at hacc
  cases hsec : secretEnv with
  | none =>
    rw [hsec] at hacc
    simp only [Option.map_none'] at hacc
    exact absurd hacc (by simp)
  | some secretRaw =>
    rw [hsec] at hacc
    simp only [Option.map_some'] at hacc
    by_cases h0 : (jsTrim secretRaw).length = 0
    · rw [if_pos h0] at hacc
      exact absurd hacc (by simp)
    · rw [if_neg h0] at hacc
      by_cases h32 : (jsTrim secretRaw).length < MIN_API_SECRET_LENGTH
      · rw [if_pos h32] at hacc
        exact absurd hacc (by simp)
      · rw [if_neg h32] at hacc
        split at hacc
        case _ ah tsH nH hA hT hN =>
          split at hacc
          case _ hX => exact absurd hacc (by simp)
          case _ sig hX =>
            split at hacc
            case _ hemp => exact absurd hacc (by simp)
            case _ hemp =>
              simp only [Bool.or_eq_true, decide_eq_true_eq, not_or] at hemp
              obtain ⟨⟨hs, ht⟩, hn⟩ := hemp
              split at hacc
              case _ hP => exact absurd hacc (by simp)
              case _ ts hP =>
                split at hacc
                case _ hV => exact absurd hacc (by simp)
                case _ hV =>
                  simp only [Bool.not_eq_true', Bool.not_eq_false] at hV
                  split at hacc
                  case _ hNz => exact absurd hacc (by simp)
                  case _ hNz =>
                    split at hacc
                    case _ hsig =>
                      exact ⟨secretRaw, ah, tsH, nH, sig, ts, rfl, h0, h32, hA, hT, hN,
                        hX, hs, ht, hn, hP, hV, hNz, hsig⟩
                    case _ hsig => exact absurd hacc (by simp)
        case _ _ _ _ => exact absurd hacc (by simp)

/-- Converse of the anatomy: a request passing every check is accepted. -/
lemma authMiddleware_accept_intro (crypto : CryptoPrims) (basePath : String)
    (secretRaw ah tsH nH sig : String) (now ts : Int) (req : AuthRequest)
    (h0 : (jsTrim secretRaw).length ≠ 0)
    (h32 : ¬(jsTrim secretRaw).length < MIN_API_SECRET_LENGTH)
    (hA : normalizeHeader req.authorization = some ah)
    (hT : normalizeHeader req.signatureTimestamp = some tsH)
    (hN : normalizeHeader req.signatureNonce = some nH)
    (hX : extractBearerToken ah = some sig)
    (hs : sig ≠ "") (ht : tsH ≠ "") (hn : nH ≠ "")
    (hP : parseIntJS tsH = some ts)
    (hV : isValidTimestamp now ts = true)
    (hNz : (jsTrim nH).length ≠ 0)
    (hsig : validateSignature crypto.bytes sig
      (computeHmac crypto
        (buildCanonicalMessage crypto.sha256Base64url req.method
          (canonicalPathOf basePath req.url) tsH nH (req.rawBody.getD ""))
        (jsTrim secretRaw)) = true) :
    authMiddleware crypto basePath (some secretRaw) now req = .accept := by
  unfold authMiddleware
  simp only [Option.map_some']
  rw [if_neg h0, if_neg h32]
  simp only [hA, hT, hN, hX]
  simp [hs, ht, hn, hP, hV, hNz, hsig]

/-- With a well-configured secret, the middleware either accepts or sends
the one uniform 401 response. -/
lemma authMiddleware_reject_uniform (crypto : CryptoPrims) (basePath secretRaw : String)
    (now : Int) (req : AuthRequest)
    (h0 : (jsTrim secretRaw).length ≠ 0)
    (h32 : ¬(jsTrim secretRaw).length < MIN_API_SECRET_LENGTH) :
    authMiddleware crypto basePath (some secretRaw) now req = .accept ∨
      authMiddleware crypto basePath (some secretRaw) now req = .reject unauthorizedResponse := by
  unfold authMiddleware
  simp only [Option.map_some']
  rw [if_neg h0, if_neg h32]
  split
  case _ ah tsH nH hA hT hN =>
    split
    case _ hX => exact Or.inr rfl
    case _ sig hX =>
      split
      case _ hemp => exact Or.inr rfl
      case _ hemp =>
        split
        case _ hP => exact Or.inr rfl
        case _ ts hP =>
          split
          case _ hV => exact Or.inr rfl
          case _ hV =>
            split
            case _ hNz => exact Or.inr rfl
            case _ hNz =>
              split
              case _ hsig => exact Or.inl rfl
              case _ hsig => exact Or.inr rfl
  case _ _ _ _ => exact Or.inr rfl

/-- C2: an accepted request's Bearer token is byte-equal to the base64url
HMAC-SHA256 of the exact canonical message
`method=<uppercased>;path=<prefix-stripped>;ts=<header>;nonce=<header>;body_sha256=<digest of raw body, empty string when absent>`
under the configured secret; the signature comparison returns false on a
byte-length mismatch without comparing bytes, and otherwise is the
constant-time byte comparison over the full buffers. -/
theorem c2_canonical_message_and_comparison :
    (∀ (crypto : CryptoPrims) (basePath secretRaw ah tsH nH sig : String) (now : Int)
        (req : AuthRequest),
        normalizeHeader req.authorization = some ah →
        normalizeHeader req.signatureTimestamp = some tsH →
        normalizeHeader req.signatureNonce = some nH →
        extractBearerToken ah = some sig →
        authMiddleware crypto basePath (some secretRaw) now req = .accept →
        crypto.bytes sig =
          crypto.bytes (crypto.hmacSha256
            ("method=" ++ jsToUpperCase req.method ++ ";path=" ++
              canonicalPathOf basePath req.url ++ ";ts=" ++ tsH ++ ";nonce=" ++ nH ++
              ";body_sha256=" ++ crypto.sha256Base64url (req.rawBody.getD ""))
            (jsTrim secretRaw))) ∧
    (∀ (bytes : String → List Nat) (a b : String),
        (bytes a).length ≠ (bytes b).length →
        validateSignature bytes a b = false ∧ validateSignatureComparisons bytes a b = 0) ∧
    (∀ (bytes : String → List Nat) (a b : String),
        a ≠ "" → b ≠ "" → (bytes a).length = (bytes b).length →
        validateSignature bytes a b = timingSafeEqual (bytes a) (bytes b) ∧
          validateSignatureComparisons bytes a b = (bytes a).length) := by
  refine ⟨?_, ?_, ?_⟩
  · intro crypto basePath secretRaw ah tsH nH sig now req hA hT hN hX hacc
    obtain ⟨sr, ah', tsH', nH', sig', ts, hsec, h0, h32, hA', hT', hN', hX',
      _, _, _, hP, hV, hNz, hsig⟩ := authMiddleware_accept_anatomy _ _ _ _ _ hacc
    obtain rfl : secretRaw = sr := Option.some.inj hsec
    obtain rfl : ah = ah' := Option.some.inj (hA.symm.trans hA')
    obtain rfl : tsH = tsH' := Option.some.inj (hT.symm.trans hT')
    obtain rfl : nH = nH' := Option.some.inj (hN.symm.trans hN')
    obtain rfl : sig = sig' := Option.some.inj (hX.symm.trans hX')
    have hbe := validateSignature_bytes_eq crypto.bytes _ _ hsig
    simpa [computeHmac, buildCanonicalMessage] using hbe
  · intro bytes a b hlen
    constructor
    · unfold validateSignature
      split
      · rfl
      · dsimp only
        rw [if_pos hlen]
    · unfold validateSignatureComparisons
      split
      · rfl
      · dsimp only
        rw [if_pos hlen]
  · intro bytes a b ha hb hlen
    have hemp : (decide (a = "") || decide (b = "")) = false := by
      simp [ha, hb]
    constructor
    · unfold validateSignature
      rw [if_neg (by simp [ha, hb])]
      dsimp only
      rw [if_neg (by simp [hlen])]
    · unfold validateSignatureComparisons
      rw [if_neg (by simp [ha, hb])]
      dsimp only
      rw [if_neg (by simp [hlen])]

/-- A timestamp older than the window fails the freshness predicate. -/
lemma isValidTimestamp_stale {now ts : Int} (h : (now - ts).natAbs > MAX_TIMESTAMP_AGE) :
    isValidTimestamp now ts = false := by
  unfold isValidTimestamp
  dsimp only
  rw [decide_eq_false (by omega)]
  simp

/-- A timestamp too far in the future fails the freshness predicate. -/
lemma isValidTimestamp_future {now ts : Int} (h : ts > now + MAX_FUTURE_SKEW) :
    isValidTimestamp now ts = false := by
  unfold isValidTimestamp
  dsimp only
  have h2 : decide (ts ≤ now + MAX_FUTURE_SKEW) = false := decide_eq_false (by omega)
  rw [h2]
  simp

/-- Acceptance forces the parsed timestamp to pass the freshness check. -/
lemma authMiddleware_accept_fresh (crypto : CryptoPrims) (basePath : String)
    (secretEnv : Option String) (now ts : Int) (req : AuthRequest) (tsH : String)
    (hT : normalizeHeader req.signatureTimestamp = some tsH)
    (hP : parseIntJS tsH = some ts)
    (hacc : authMiddleware crypto basePath secretEnv now req = .accept) :
    isValidTimestamp now ts = true := by
  obtain ⟨sr, ah', tsH', nH', sig', ts', hsec, h0, h32, hA', hT', hN', hX',
    _, _, _, hP', hV, hNz, hsig⟩ := authMiddleware_accept_anatomy _ _ _ _ _ hacc
  obtain rfl : tsH = tsH' := Option.some.inj (hT.symm.trans hT')
  obtain rfl : ts = ts' := Option.some.inj (hP.symm.trans hP')
  exact hV

/-- C3: with a configured secret, any request whose signature-timestamp
header parses to `ts` is rejected with the uniform 401 whenever
`|now - ts| > 60` — for every signature, so the timestamp gate does not
depend on signature correctness — and separately whenever
`ts > now + 10`; timestamps satisfying both bounds pass the freshness
check. -/
theorem c3_timestamp_window :
    (∀ (crypto : CryptoPrims) (basePath secretRaw tsH : String) (now ts : Int)
        (req : AuthRequest),
        (jsTrim secretRaw).length ≠ 0 →
        ¬(jsTrim secretRaw).length < MIN_API_SECRET_LENGTH →
        normalizeHeader req.signatureTimestamp = some tsH →
        parseIntJS tsH = some ts →
        (now - ts).natAbs > MAX_TIMESTAMP_AGE →
        authMiddleware crypto basePath (some secretRaw) now req = .reject unauthorizedResponse) ∧
    (∀ (crypto : CryptoPrims) (basePath secretRaw tsH : String) (now ts : Int)
        (req : AuthRequest),
        (jsTrim secretRaw).length ≠ 0 →
        ¬(jsTrim secretRaw).length < MIN_API_SECRET_LENGTH →
        normalizeHeader req.signatureTimestamp = some tsH →
        parseIntJS tsH = some ts →
        ts > now + MAX_FUTURE_SKEW →
        authMiddleware crypto basePath (some secretRaw) now req = .reject unauthorizedResponse) ∧
    (∀ now ts : Int,
        (now - ts).natAbs ≤ MAX_TIMESTAMP_AGE → ts ≤ now + MAX_FUTURE_SKEW →
        isValidTimestamp now ts = true) := by
  refine ⟨?_, ?_, ?_⟩
  · intro crypto basePath secretRaw tsH now ts req h0 h32 hT hP hage
    rcases authMiddleware_reject_uniform crypto basePath secretRaw now req h0 h32 with hacc | hrej
    · have hV := authMiddleware_accept_fresh crypto basePath _ now ts req tsH hT hP hacc
      rw [isValidTimestamp_stale hage] at hV
      exact absurd hV (by simp)
    · exact hrej
  · intro crypto basePath secretRaw tsH now ts req h0 h32 hT hP hfut
    rcases authMiddleware_reject_uniform crypto basePath secretRaw now req h0 h32 with hacc | hrej
    · have hV := authMiddleware_accept_fresh crypto basePath _ now ts req tsH hT hP hacc
      rw [isValidTimestamp_future hfut] at hV
      exact absurd hV (by simp)
    · exact hrej
  · intro now ts h1 h2
    unfold isValidTimestamp
    dsimp only
    rw [decide_eq_true h1, decide_eq_true h2]
    rfl

/-- C4: with a well-configured secret, every rejection is the one uniform
401 `Unauthorized / Authentication failed` response, whichever check
failed; a missing (or blank) secret yields the 500 configuration
response, a secret shorter than 32 characters yields its own 500
response, and both 500 responses differ from the uniform 401. -/
theorem c4_failure_taxonomy :
    (∀ (crypto : CryptoPrims) (basePath secretRaw : String) (now : Int)
        (req : AuthRequest) (r : HttpResponse),
        (jsTrim secretRaw).length ≠ 0 →
        ¬(jsTrim secretRaw).length < MIN_API_SECRET_LENGTH →
        authMiddleware crypto basePath (some secretRaw) now req = .reject r →
        r = unauthorizedResponse) ∧
    (∀ (crypto : CryptoPrims) (basePath : String) (now : Int) (req : AuthRequest),
        authMiddleware crypto basePath none now req = .reject secretMissingResponse) ∧
    (∀ (crypto : CryptoPrims) (basePath secretRaw : String) (now : Int) (req : AuthRequest),
        (jsTrim secretRaw).length = 0 →
        authMiddleware crypto basePath (some secretRaw) now req = .reject secretMissingResponse) ∧
    (∀ (crypto : CryptoPrims) (basePath secretRaw : String) (now : Int) (req : AuthRequest),
        (jsTrim secretRaw).length ≠ 0 →
        (jsTrim secretRaw).length < MIN_API_SECRET_LENGTH →
        authMiddleware crypto basePath (some secretRaw) now req = .reject secretTooShortResponse) ∧
    secretMissingResponse ≠ unauthorizedResponse ∧
    secretTooShortResponse ≠ unauthorizedResponse ∧
    secretMissingResponse ≠ secretTooShortResponse := by
  refine ⟨?_, ?_, ?_, ?_, by decide, by decide, by decide⟩
  · intro crypto basePath secretRaw now req r h0 h32 hr
    rcases authMiddleware_reject_uniform crypto basePath secretRaw now req h0 h32 with hacc | hrej
    · rw [hacc] at hr
      exact absurd hr (by simp)
    · rw [hrej] at hr
      exact (AuthOutcome.reject.inj hr).symm
  · intro crypto basePath now req
    rfl
  · intro crypto basePath secretRaw now req h0
    unfold authMiddleware
    simp only [Option.map_some']
    rw [if_pos h0]
  · intro crypto basePath secretRaw now req h0 h32
    unfold authMiddleware
    simp only [Option.map_some']
    rw [if_neg h0, if_pos h32]

/-- C10: a repeated Authorization, Signature-Timestamp or Signature-Nonce
header (an array of two or more values) is rejected with the uniform 401,
whatever the timestamp or signature material says. -/
theorem c10_repeated_headers_rejected :
    ∀ (crypto : CryptoPrims) (basePath secretRaw : String) (now : Int)
      (req : AuthRequest) (vs : List String),
      (jsTrim secretRaw).length ≠ 0 →
      ¬(jsTrim secretRaw).length < MIN_API_SECRET_LENGTH →
      2 ≤ vs.length →
      (req.authorization = .multi vs ∨ req.signatureTimestamp = .multi vs ∨
        req.signatureNonce = .multi vs) →
      authMiddleware crypto basePath (some secretRaw) now req = .reject unauthorizedResponse := by
  intro crypto basePath secretRaw now req vs h0 h32 hlen hcase
  rcases authMiddleware_reject_uniform crypto basePath secretRaw now req h0 h32 with hacc | hrej
  · exfalso
    obtain ⟨sr, ah', tsH', nH', sig', ts', hsec, _, _, hA', hT', hN', _, _, _, _, _, _, _, _⟩ :=
      authMiddleware_accept_anatomy _ _ _ _ _ hacc
    rcases hcase with hc | hc | hc
    · rw [hc, normalizeHeader_multi hlen] at hA'
      exact absurd hA' (by simp)
    · rw [hc, normalizeHeader_multi hlen] at hT'
      exact absurd hT' (by simp)
    · rw [hc, normalizeHeader_multi hlen] at hN'
      exact absurd hN' (by simp)
  · exact hrej

/-- C8 (amended): verification is stateless — a request accepted at one
instant is accepted again at any instant at which its timestamp still
satisfies both freshness bounds, so a (timestamp, nonce) pair is not
single-use within the 60-second window. -/
theorem c8_replay_within_window :
    ∀ (crypto : CryptoPrims) (basePath : String) (secretEnv : Option String)
      (t₁ t₂ ts : Int) (req : AuthRequest) (tsH : String),
      normalizeHeader req.signatureTimestamp = some tsH →
      parseIntJS tsH = some ts →
      authMiddleware crypto basePath secretEnv t₁ req = .accept →
      (t₂ - ts).natAbs ≤ MAX_TIMESTAMP_AGE →
      ts ≤ t₂ + MAX_FUTURE_SKEW →
      authMiddleware crypto basePath secretEnv t₂ req = .accept := by
  intro crypto basePath secretEnv t₁ t₂ ts req tsH hT hP hacc h1 h2
  obtain ⟨sr, ah', tsH', nH', sig', ts', hsec, h0, h32, hA', hT', hN', hX',
    hs, ht, hn, hP', hV, hNz, hsig⟩ := authMiddleware_accept_anatomy _ _ _ _ _ hacc
  obtain rfl : tsH = tsH' := Option.some.inj (hT.symm.trans hT')
  obtain rfl : ts = ts' := Option.some.inj (hP.symm.trans hP')
  subst hsec
  have hV₂ : isValidTimestamp t₂ ts = true := by
    unfold isValidTimestamp
    dsimp only
    rw [decide_eq_true h1, decide_eq_true h2]
    rfl
  exact authMiddleware_accept_intro crypto basePath sr ah' tsH nH' sig' t₂ ts req
    h0 h32 hA' hT' hN' hX' hs ht hn hP' hV₂ hNz hsig

/-- C8 counterexample: the middleware is stateless, so the very same
request — same timestamp, same nonce, same (correct) signature — is
accepted twice within the 60-second freshness window, refuting
"verification succeeds exactly once per (timestamp, nonce) pair". -/
theorem c8_counterexample_replay_accepted :
    authMiddleware testCrypto "/api/v1" (some testSecret) 100 testRequest = .accept ∧
      authMiddleware testCrypto "/api/v1" (some testSecret) 130 testRequest = .accept := by
  constructor <;> decide

/-- C1: starting from a store with no active downtime event, every
interleaving of supervisor ticks and accepted heartbeat writes keeps at
most one event with `is_active = true`; a tick with an active event
present leaves the downtime table untouched, and a heartbeat write never
adds or removes downtime rows nor increases the active count. -/
theorem c1_at_most_one_active_event :
    (∀ (cfg : MonitorConfig) (st : SysState) (ops : List SystemOp),
        getActiveDowntimeEvent st.store = none →
        activeEventCount (runSystem cfg st ops).1.store ≤ 1) ∧
    (∀ (cfg : MonitorConfig) (st : SysState) (now : Int) (a : DowntimeEventRec),
        getActiveDowntimeEvent st.store = some a →
        (checkDowntime cfg st now).1.store.downtime_events = st.store.downtime_events) ∧
    (∀ (cfg : MonitorConfig) (st : SysState) (now timestamp : Int)
        (connection_state : String),
        (heartbeatWrite cfg st now timestamp connection_state).1.store.downtime_events.length =
            st.store.downtime_events.length ∧
          activeEventCount (heartbeatWrite cfg st now timestamp connection_state).1.store ≤
            activeEventCount st.store) := by
  refine ⟨?_, ?_, ?_⟩
  · intro cfg st ops hnone
    exact activeEventCount_run_le cfg ops st (by rw [activeEventCount_eq_zero hnone]; omega)
  · intro cfg st now a ha
    unfold checkDowntime
    simp only [ha]
    cases hc : st.confirmedDowntimeIds.contains a.id with
    | true => simp [hc]
    | false =>
      simp only [hc, Bool.false_eq_true, if_false]
      rw [checkConfirmationNotification_store]
  · intro cfg st now timestamp connection_state
    exact ⟨(heartbeatWrite_events cfg st now timestamp connection_state).2,
      (heartbeatWrite_events cfg st now timestamp connection_state).1⟩

/-- C1 witness: a concrete run (staleness tick creating an event, a later
tick, then a recovering heartbeat) keeps at most one active event. -/
theorem c1_at_most_one_active_event_witness :
    activeEventCount (runSystem testConfig healthyState
      [.tick 400000, .tick 2400000, .heartbeat 2500000 2500000 "up"]).1.store ≤ 1 :=
  c1_at_most_one_active_event.1 testConfig healthyState
    [.tick 400000, .tick 2400000, .heartbeat 2500000 2500000 "up"] (by decide)

/-- C5: when no event is active and the last heartbeat is older than the
timeout, a tick appends exactly one new event with
`started_at = heartbeat.timestamp + timeout` and `is_active = true`, and
emits exactly one detected notification carrying the configured timeout. -/
theorem c5_staleness_creates_event (cfg : MonitorConfig) (st : SysState) (now : Int)
    (hb : HeartbeatRec)
    (hact : getActiveDowntimeEvent st.store = none)
    (hlast : getLastHeartbeat st.store = some hb)
    (hgap : now - hb.timestamp > cfg.heartbeatTimeoutMs)
    (henb : cfg.notificationsEnabled = true) :
    checkDowntime cfg st now =
      ({ st with store :=
          { st.store with
              downtime_events := st.store.downtime_events ++
                [⟨st.store.nextDowntimeId, hb.timestamp + cfg.heartbeatTimeoutMs,
                  none, none, true, some "Automatically detected downtime"⟩],
              nextDowntimeId := st.store.nextDowntimeId + 1 } },
       [.detected st.store.nextDowntimeId (hb.timestamp + cfg.heartbeatTimeoutMs)
          cfg.heartbeatTimeoutMs]) := by
  unfold checkDowntime createNewDowntime createDowntimeEvent
  simp [hact, hlast, hgap, henb]

/-- C5 witness: with the default 300000 ms timeout and the last heartbeat
at epoch 0, the tick at 360000 ms creates the event starting at 300000 ms
and fires one detected notification. -/
theorem c5_staleness_creates_event_witness :
    (checkDowntime testConfig healthyState 360000).2 =
      [.detected 1 300000 300000] := by
  rw [c5_staleness_creates_event testConfig healthyState 360000 ⟨1, 0, "up"⟩
    (by decide) (by decide) (by decide) rfl]
  decide

/-- C6: an accepted heartbeat with `connection_state = "up"` while an event
is active closes that event — `ended_at = now`,
`duration = floor((ended_at - started_at) / 1000)`, `is_active = false` —
removes its id from the confirmed set, and emits exactly one recovered
notification; any other `connection_state` leaves the downtime table and
the confirmed set unchanged and emits nothing. -/
theorem c6_recovery_closes_event (cfg : MonitorConfig) (st : SysState) (now ts : Int)
    (active : DowntimeEventRec)
    (hact : getActiveDowntimeEvent st.store = some active)
    (hnd : (st.store.downtime_events.map (fun e => e.id)).Nodup)
    (henb : cfg.notificationsEnabled = true) :
    ((heartbeatWrite cfg st now ts "up").1.store.downtime_events =
        st.store.downtime_events.map (fun e =>
          if e.id == active.id then
            { e with ended_at := some now,
                     duration := some (Int.fdiv (now - active.started_at) 1000),
                     is_active := false }
          else e) ∧
      (heartbeatWrite cfg st now ts "up").1.confirmedDowntimeIds =
        st.confirmedDowntimeIds.erase active.id ∧
      (heartbeatWrite cfg st now ts "up").2 =
        [.recovered active.id active.started_at now]) ∧
    (∀ cs : String, cs ≠ "up" →
      (heartbeatWrite cfg st now ts cs).1.store.downtime_events =
          st.store.downtime_events ∧
        (heartbeatWrite cfg st now ts cs).1.confirmedDowntimeIds =
          st.confirmedDowntimeIds ∧
        (heartbeatWrite cfg st now ts cs).2 = []) := by
  have hrec : getActiveDowntimeEvent (recordHeartbeat st.store ts "up").2 = some active := hact
  have hfind : List.find? (fun e => e.id == active.id)
      (recordHeartbeat st.store ts "up").2.downtime_events = some active :=
    find_id_of_nodup (getActiveDowntimeEvent_mem hact).1 hnd
  constructor
  · unfold heartbeatWrite endDowntimeEvent
    dsimp only
    simp only [hrec, if_pos rfl, hfind]
    simp only [henb, if_true]
    refine ⟨by trivial, by trivial, by trivial⟩
  · intro cs hcs
    unfold heartbeatWrite
    dsimp only
    cases hact2 : getActiveDowntimeEvent (recordHeartbeat st.store ts cs).2 with
    | none =>
      simp only [hact2]
      exact ⟨by trivial, by trivial, by trivial⟩
    | some a2 =>
      simp only [hact2]
      rw [if_neg hcs]
      exact ⟨by trivial, by trivial, by trivial⟩

/-- C6 witness: a concrete "up" heartbeat at time 1000000 closes the
active event that started at 300000 with duration 700 s and one recovered
notification. -/
theorem c6_recovery_closes_event_witness :
    (heartbeatWrite testConfig downState 1000000 999000 "up").2 =
      [.recovered 1 300000 1000000] :=
  (c6_recovery_closes_event testConfig downState 1000000 999000
    ⟨1, 300000, none, none, true, none⟩ (by decide) (by decide) rfl).1.2.2

/-- C7: over every tick sequence, at most one confirmed notification is
emitted per event id; the tick that emits it is one where the event is
active, its id is not yet in the confirmed set and
`now - started_at ≥ confirmation delay`, and that tick inserts the id
into the set; once the id is in the set a tick emits no confirmed
notification for it. -/
theorem c7_confirmed_at_most_once :
    (∀ (cfg : MonitorConfig) (st : SysState) (id : Nat) (nows : List Int),
        confirmedCount id (runTicks cfg st nows).2 ≤ 1) ∧
    (∀ (cfg : MonitorConfig) (st : SysState) (now : Int) (a : DowntimeEventRec),
        getActiveDowntimeEvent st.store = some a →
        a.id ∉ st.confirmedDowntimeIds →
        now - a.started_at ≥ cfg.confirmationDelayMs →
        cfg.notificationsEnabled = true →
        (checkDowntime cfg st now).2 =
            [.confirmed a.id a.started_at cfg.confirmationDelayMs] ∧
          (checkDowntime cfg st now).1.confirmedDowntimeIds =
            st.confirmedDowntimeIds.insert a.id) ∧
    (∀ (cfg : MonitorConfig) (st : SysState) (now : Int) (id : Nat),
        id ∈ st.confirmedDowntimeIds →
        confirmedCount id (checkDowntime cfg st now).2 = 0) := by
  refine ⟨?_, ?_, ?_⟩
  · intro cfg st id nows
    exact (runTicks_confirmed cfg id nows st).2
  · intro cfg st now a hact hna hd henb
    have hc : st.confirmedDowntimeIds.contains a.id = false := by
      cases hcc : st.confirmedDowntimeIds.contains a.id with
      | false => rfl
      | true => exact absurd ((contains_iff_mem _ _).mp hcc) hna
    unfold checkDowntime checkConfirmationNotification
    simp only [hact, hc, Bool.false_eq_true, if_false]
    rw [if_pos hd]
    simp only [henb, if_true]
    exact ⟨by trivial, by trivial⟩
  · intro cfg st now id hmem
    exact ((checkDowntime_confirmed cfg st now id).1 hmem).2

/-- C7 witness: with the event id already confirmed, a tick far past the
confirmation delay emits no confirmed notification. -/
theorem c7_confirmed_at_most_once_witness :
    confirmedCount 1 (checkDowntime testConfig downState 3000000).2 = 0 :=
  c7_confirmed_at_most_once.2.2 testConfig downState 3000000 1 (by decide)

/-- C9: the loop re-arms one timer only when a tick completes with
`intervalId` still set, identically whether or not the tick body raised
(the exception is caught inside the tick); `stop` disarms the loop and
cancels the pending timer; and from a stopped state, any event sequence
without a new `start` keeps the loop disarmed with no pending timer and
can contain no further timer fire. -/
theorem c9_rearm_and_stop :
    (∀ (s : MonitorLoopState) (b₁ b₂ : Bool),
        loopStep s (.tickFinish b₁) = loopStep s (.tickFinish b₂)) ∧
    (∀ (s : MonitorLoopState) (b : Bool),
        1 ≤ s.ticksInFlight → s.intervalIdSet = true →
        loopStep s (.tickFinish b) =
          some { s with ticksInFlight := s.ticksInFlight - 1,
                        pendingTimers := s.pendingTimers + 1 }) ∧
    (∀ s : MonitorLoopState, s.intervalIdSet = true →
        loopStep s .stopCall =
          some { s with intervalIdSet := false, pendingTimers := 0 }) ∧
    (∀ (evs : List LoopEvent) (s s' : MonitorLoopState),
        s.intervalIdSet = false → s.pendingTimers = 0 →
        LoopEvent.startCall ∉ evs → runLoop s evs = some s' →
        s'.intervalIdSet = false ∧ s'.pendingTimers = 0 ∧
          LoopEvent.timerFire ∉ evs) := by
  refine ⟨?_, ?_, ?_, runLoop_stopped⟩
  · intro s b₁ b₂
    rfl
  · intro s b hf hset
    unfold loopStep
    rw [if_pos hf]
    simp [hset]
  · intro s hset
    unfold loopStep
    simp [hset]

/-- C9 witness: a tick finishing while armed re-arms exactly one timer
even when the tick raised. -/
theorem c9_rearm_and_stop_witness :
    loopStep ⟨true, 0, 1⟩ (.tickFinish true) = some ⟨true, 1, 0⟩ :=
  c9_rearm_and_stop.2.1 ⟨true, 0, 1⟩ true (by decide) rfl

/-- C2 witness: the concrete accepted request's token is byte-equal to the
recomputed signature over its canonical message. -/
theorem c2_canonical_message_witness :
    testCrypto.bytes "testsig" =
      testCrypto.bytes (testCrypto.hmacSha256
        ("method=" ++ jsToUpperCase testRequest.method ++ ";path=" ++
          canonicalPathOf "/api/v1" testRequest.url ++ ";ts=" ++ "100" ++ ";nonce=" ++ "n1" ++
          ";body_sha256=" ++ testCrypto.sha256Base64url (testRequest.rawBody.getD ""))
        (jsTrim testSecret)) :=
  c2_canonical_message_and_comparison.1 testCrypto "/api/v1" testSecret
    "Bearer testsig" "100" "n1" "testsig" 100 testRequest
    (by decide) (by decide) (by decide) (by decide) (by decide)

/-- C3 witness: the stale request (timestamp 0, now 100) draws the uniform
401. -/
theorem c3_timestamp_window_witness :
    authMiddleware testCrypto "/api/v1" (some testSecret) 100 staleRequest =
      .reject unauthorizedResponse :=
  c3_timestamp_window.1 testCrypto "/api/v1" testSecret "0" 100 0 staleRequest
    (by decide) (by decide) (by decide) (by decide) (by decide)

/-- C4 witness: a 5-character secret draws the too-short 500 response. -/
theorem c4_failure_taxonomy_witness :
    authMiddleware testCrypto "/api/v1" (some "short") 100 testRequest =
      .reject secretTooShortResponse :=
  c4_failure_taxonomy.2.2.2.1 testCrypto "/api/v1" "short" 100 testRequest
    (by decide) (by decide)

/-- C10 witness: a doubled Authorization header draws the uniform 401. -/
theorem c10_repeated_headers_witness :
    authMiddleware testCrypto "/api/v1" (some testSecret) 100 multiHeaderRequest =
      .reject unauthorizedResponse :=
  c10_repeated_headers_rejected testCrypto "/api/v1" testSecret 100 multiHeaderRequest
    ["Bearer testsig", "Bearer other"] (by decide) (by decide) (by decide) (Or.inl (by decide))

/-- C8 witness: the request accepted at time 100 is accepted again at
time 95, within the freshness window. -/
theorem c8_replay_within_window_witness :
    authMiddleware testCrypto "/api/v1" (some testSecret) 95 testRequest = .accept :=
  c8_replay_within_window testCrypto "/api/v1" (some testSecret) 100 95 100 testRequest "100"
    (by decide) (by decide) (by decide) (by decide) (by decide)
